import Mathlib

/-!
Verification of the deck-gl-orbit OrbitArea editor core.

The TypeScript sources are shallowly embedded here:
* JavaScript numbers are modelled as rationals (`ℚ`); JavaScript's `%`
  remainder (sign of the dividend, truncating division) is `jsMod`.
* The `geolib` package (great-circle `getDistance`, `getGreatCircleBearing`,
  `computeDestinationPoint`) is an external dependency, not repository code,
  so it is modelled as an abstract `GeoModel` record of functions; the
  repository's own functions are parametric in it.
* deck.gl callbacks (`onStateChange`, `onOrbitAreaComplete`) are modelled by
  returning the argument of each call (if any) as an `Option` field of an
  effect record.
-/

/-- `Point` from `src/types`: a geographical point.  The optional
`altitude`/`frame` fields are never read by the embedded code and are
omitted. -/
structure Point where
  latitude : ℚ
  longitude : ℚ
deriving DecidableEq, Repr

/-- Truncation toward zero, as used by JavaScript's `%` operator
(`x % y = x - y * trunc (x / y)` for finite operands). -/
def ratTrunc (q : ℚ) : ℤ :=
  q.num.tdiv q.den

/-- JavaScript's remainder operator `x % y` (sign follows the dividend). -/
def jsMod (x y : ℚ) : ℚ :=
  x - y * (ratTrunc (x / y) : ℚ)

/-- `normalizeAngle` from `src/utils/geo-utils.ts`:
`((angle % 360) + 360) % 360`. -/
def normalizeAngle (angle : ℚ) : ℚ :=
  jsMod (jsMod angle 360 + 360) 360

/-- The external `geolib` dependency, abstracted: great-circle distance,
initial bearing, and destination-point projection.  The repository code only
composes these functions, so the claims about it hold for an arbitrary
model. -/
structure GeoModel where
  dist : Point → Point → ℚ
  bearing : Point → Point → ℚ
  dest : Point → ℚ → ℚ → Point

/-- `OrbitAreaAlignmentEnum` from `src/types` (a TypeScript string enum whose
values are the strings given by `alignmentString`). -/
inductive OrbitAreaAlignmentEnum where
  | CENTRE
  | LEFT
  | RIGHT
deriving DecidableEq, Repr

/-- The string value carried by each `OrbitAreaAlignmentEnum` member. -/
def alignmentString : OrbitAreaAlignmentEnum → String
  | .CENTRE => "OrbitAreaAlignmentEnum_CENTRE"
  | .LEFT => "OrbitAreaAlignmentEnum_LEFT"
  | .RIGHT => "OrbitAreaAlignmentEnum_RIGHT"

/-- `AlignmentQuadrant` from `src/utils/alignment-utils.ts`. -/
structure AlignmentQuadrant where
  name : String
  minAngle : ℚ
  maxAngle : ℚ
  alignment : OrbitAreaAlignmentEnum

/-- `ALIGNMENT_QUADRANTS` from `src/utils/alignment-utils.ts`. -/
def ALIGNMENT_QUADRANTS : List AlignmentQuadrant :=
  [⟨"CENTER_FORWARD", 315, 45, .CENTRE⟩,
   ⟨"RIGHT", 45, 135, .RIGHT⟩,
   ⟨"CENTER_BACKWARD", 135, 225, .CENTRE⟩,
   ⟨"LEFT", 225, 315, .LEFT⟩]

/-- The quadrant-scanning `for` loop of `determineAlignmentFromMousePosition`
(`alignment-utils.ts` lines 142–159): the first quadrant whose range contains
`r` wins, where a wrapping quadrant (`minAngle > maxAngle`) matches
`r ≥ minAngle ∨ r ≤ maxAngle` and a non-wrapping one matches
`minAngle ≤ r ∧ r ≤ maxAngle`; `none` means the loop fell through. -/
def scanFirst (r : ℚ) : List AlignmentQuadrant → Option OrbitAreaAlignmentEnum
  | [] => none
  | q :: rest =>
    if q.maxAngle < q.minAngle then
      if q.minAngle ≤ r ∨ r ≤ q.maxAngle then some q.alignment
      else scanFirst r rest
    else
      if q.minAngle ≤ r ∧ r ≤ q.maxAngle then some q.alignment
      else scanFirst r rest

/-- The relative bearing computed by `determineAlignmentFromMousePosition`
(`alignment-utils.ts` lines 128–136): the probe bearing is anchored at the
second axis point. -/
def relativeBearing (g : GeoModel) (firstPoint secondPoint mousePoint : Point) : ℚ :=
  normalizeAngle (g.bearing secondPoint mousePoint - g.bearing firstPoint secondPoint)

/-- `determineAlignmentFromMousePosition` from
`src/utils/alignment-utils.ts` lines 120–164: scan the quadrants with the
relative bearing, defaulting to `CENTRE` when no quadrant matches. -/
def determineAlignmentFromMousePosition (g : GeoModel)
    (firstPoint secondPoint mousePoint : Point) : OrbitAreaAlignmentEnum :=
  (scanFirst (relativeBearing g firstPoint secondPoint mousePoint)
    ALIGNMENT_QUADRANTS).getD .CENTRE

/-- Claim-side classifier, written from the spec's words (§4.2): the first
quadrant in the fixed scan order CENTER_FORWARD (315–45 wrapping), RIGHT
(45–135), CENTER_BACKWARD (135–225), LEFT (225–315) whose range contains the
relative bearing, both CENTER quadrants giving CENTRE; CENTRE by default. -/
def classifySpec (r : ℚ) : OrbitAreaAlignmentEnum :=
  if 315 ≤ r ∨ r ≤ 45 then .CENTRE
  else if 45 ≤ r ∧ r ≤ 135 then .RIGHT
  else if 135 ≤ r ∧ r ≤ 225 then .CENTRE
  else if 225 ≤ r ∧ r ≤ 315 then .LEFT
  else .CENTRE

/-- The centerline selection of `generateOrbitAreaPolygon`
(`geo-utils.ts` lines 218–237): LEFT offsets both axis points along
`normalizeAngle (bearing - 90)`, RIGHT along `normalizeAngle (bearing + 90)`,
anything else leaves the axis unchanged. -/
def orbitCenterline (g : GeoModel) (firstPoint secondPoint : Point)
    (bearing radius : ℚ) (alignment : String) : Point × Point :=
  if alignment = "OrbitAreaAlignmentEnum_LEFT" then
    let leftBearing := normalizeAngle (bearing - 90)
    (g.dest firstPoint leftBearing radius, g.dest secondPoint leftBearing radius)
  else if alignment = "OrbitAreaAlignmentEnum_RIGHT" then
    let rightBearing := normalizeAngle (bearing + 90)
    (g.dest firstPoint rightBearing radius, g.dest secondPoint rightBearing radius)
  else (firstPoint, secondPoint)

/-- The wraparound adjustment of `generateOrbitAreaPolygon`
(`geo-utils.ts` lines 253–255 and 273–275): add 360 to the end angle when the
start angle exceeds it. -/
def adjustEndAngle (startAngle endAngle : ℚ) : ℚ :=
  if endAngle < startAngle then endAngle + 360 else endAngle

/-- The ring-closing step of `generateOrbitAreaPolygon` (`geo-utils.ts`
lines 284–291): when the point list is nonempty, append a copy of its first
point. -/
def closeRing (polygonPoints : List Point) : List Point :=
  match polygonPoints.head? with
  | some p => polygonPoints ++ [⟨p.latitude, p.longitude⟩]
  | none => polygonPoints

/-- `generateOrbitAreaPolygon` from `src/utils/geo-utils.ts` lines 208–294.
The unused local `distance` and the unused perpendicular-bearing locals of
lines 215 and 240–241 are dropped; the second cap's end angle (lines
269–275) is dead code in the source because `angleStep` is computed once
from the first cap and reused, so it is not bound here. -/
def generateOrbitAreaPolygon (g : GeoModel) (firstPoint secondPoint : Point)
    (width : ℚ) (alignment : String) : List Point :=
  let bearing := g.bearing firstPoint secondPoint
  let radius := width / 2
  let centerline := orbitCenterline g firstPoint secondPoint bearing radius alignment
  let startAngle1 := normalizeAngle (bearing + 90)
  let endAngle1 := adjustEndAngle startAngle1 (normalizeAngle (bearing - 90))
  let segments : ℕ := 20
  let angleStep := (endAngle1 - startAngle1) / (segments : ℚ)
  let cap1 := (List.range (segments + 1)).map fun (i : ℕ) =>
    g.dest centerline.1 (normalizeAngle (startAngle1 + (i : ℚ) * angleStep)) radius
  let startAngle2 := normalizeAngle (bearing - 90)
  let cap2 := (List.range (segments + 1)).map fun (i : ℕ) =>
    g.dest centerline.2 (normalizeAngle (startAngle2 + (i : ℚ) * angleStep)) radius
  closeRing (cap1 ++ cap2)

/-- Claim-side centerline, written from the spec's words (§4.3 step 2): for
LEFT both endpoints are offset by `radius` along `bearing - 90`, for RIGHT
along `bearing + 90`, for CENTRE the axis is unchanged (no normalization of
the offset bearing is mentioned). -/
def centerlineSpec (g : GeoModel) (firstPoint secondPoint : Point)
    (bearing radius : ℚ) (alignment : String) : Point × Point :=
  if alignment = "OrbitAreaAlignmentEnum_LEFT" then
    (g.dest firstPoint (bearing - 90) radius, g.dest secondPoint (bearing - 90) radius)
  else if alignment = "OrbitAreaAlignmentEnum_RIGHT" then
    (g.dest firstPoint (bearing + 90) radius, g.dest secondPoint (bearing + 90) radius)
  else (firstPoint, secondPoint)

/-- Claim-side polygon generator, written from the spec's words (§4.3): cap
at the first centerline point sweeping `bearing+90 → bearing-90`, cap at the
second centerline point sweeping `bearing-90 → bearing+90`, each at a fixed
angular step over 20 segments with its own wraparound-adjusted span, each
point projected at `radius` via `destination`; the ring is closed by
appending a copy of the first generated point. -/
def generateOrbitAreaPolygonSpec (g : GeoModel) (firstPoint secondPoint : Point)
    (width : ℚ) (alignment : String) : List Point :=
  let bearing := g.bearing firstPoint secondPoint
  let radius := width / 2
  let centerline := centerlineSpec g firstPoint secondPoint bearing radius alignment
  let s1 := normalizeAngle (bearing + 90)
  let e1 := adjustEndAngle s1 (normalizeAngle (bearing - 90))
  let cap1 := (List.range (20 + 1)).map fun (i : ℕ) =>
    g.dest centerline.1 (s1 + (i : ℚ) * ((e1 - s1) / 20)) radius
  let s2 := normalizeAngle (bearing - 90)
  let e2 := adjustEndAngle s2 (normalizeAngle (bearing + 90))
  let cap2 := (List.range (20 + 1)).map fun (i : ℕ) =>
    g.dest centerline.2 (s2 + (i : ℚ) * ((e2 - s2) / 20)) radius
  closeRing (cap1 ++ cap2)

/-- `EditorMode` from `src/types`. -/
inductive EditorMode where
  | INACTIVE
  | FIRST_POINT
  | SECOND_POINT
  | WIDTH_SELECTION
deriving DecidableEq, Repr

/-- `EditorState` from `src/types` (all point/number fields optional). -/
structure EditorState where
  mode : EditorMode
  firstPoint : Option Point
  secondPoint : Option Point
  width : Option ℚ
  mousePosition : Option Point
  alignment : Option OrbitAreaAlignmentEnum
deriving DecidableEq, Repr

/-- `OrbitArea` from `src/types` (the optional `id` of `SurfaceBase` is never
set by the editor and is omitted). -/
structure OrbitArea where
  first_point : Point
  second_point : Point
  width : ℚ
  alignment : OrbitAreaAlignmentEnum
deriving DecidableEq, Repr

/-- The observable effect of one `OrbitAreaEditor.onClick` call: the state
passed to `onStateChange` (if called), the area passed to
`onOrbitAreaComplete` (if called), and the boolean return value. -/
structure ClickEffect where
  stateChange : Option EditorState
  completion : Option OrbitArea
  handled : Bool
deriving DecidableEq, Repr

/-- `OrbitAreaEditor.onClick` from `src/layers/OrbitAreaEditor.ts` lines
96–168.  `hasStateChange` / `hasComplete` record whether the respective
callback props were provided; `coordinate` is `info.coordinate`.  Note the
source has no null-coordinate guard: `info.coordinate?.[0] || 0` turns a
missing coordinate into the point (0, 0). -/
def OrbitAreaEditor.onClick (g : GeoModel) (hasStateChange hasComplete : Bool)
    (editorState : EditorState) (currentAlignment : OrbitAreaAlignmentEnum)
    (coordinate : Option Point) : ClickEffect :=
  if hasStateChange = false then ⟨none, none, false⟩
  else
    let pickedPoint : Point := coordinate.getD ⟨0, 0⟩
    match editorState.mode with
    | .FIRST_POINT =>
      ⟨some { editorState with
          firstPoint := some pickedPoint,
          mode := .SECOND_POINT }, none, true⟩
    | .SECOND_POINT =>
      ⟨some { editorState with
          secondPoint := some pickedPoint,
          mode := .WIDTH_SELECTION }, none, true⟩
    | .WIDTH_SELECTION =>
      match editorState.firstPoint, editorState.secondPoint with
      | some firstPoint, some secondPoint =>
        let distance := g.dist secondPoint pickedPoint
        let width := distance * 2
        let orbitArea : OrbitArea := ⟨firstPoint, secondPoint, width, currentAlignment⟩
        ⟨some { editorState with
            firstPoint := none,
            secondPoint := none,
            width := none,
            mousePosition := none,
            mode := .INACTIVE },
          if hasComplete then some orbitArea else none, true⟩
      | _, _ => ⟨none, none, true⟩
    | .INACTIVE => ⟨none, none, true⟩

/-- The observable effect of one `OrbitAreaEditor.onHover` call: the state
passed to `onStateChange` (if called), the update to the private
`_currentAlignment` field (if any), and the boolean return value. -/
structure HoverEffect where
  stateChange : Option EditorState
  alignmentUpdate : Option OrbitAreaAlignmentEnum
  handled : Bool
deriving DecidableEq, Repr

/-- `OrbitAreaEditor.onHover` from `src/layers/OrbitAreaEditor.ts` lines
171–236: hover with no coordinate is a no-op; in WIDTH_SELECTION with both
points placed the internal alignment is recomputed from the mouse position
and only the mouse position is written back to the parent state. -/
def OrbitAreaEditor.onHover (g : GeoModel) (hasStateChange : Bool)
    (editorState : EditorState) (coordinate : Option Point) : HoverEffect :=
  if hasStateChange = false then ⟨none, none, false⟩
  else
    match coordinate with
    | none => ⟨none, none, false⟩
    | some c =>
      let mousePosition : Point := c
      match editorState.mode, editorState.firstPoint, editorState.secondPoint with
      | .WIDTH_SELECTION, some firstPoint, some secondPoint =>
        let detectedAlignment :=
          determineAlignmentFromMousePosition g firstPoint secondPoint mousePosition
        ⟨some { editorState with mousePosition := some mousePosition },
          some detectedAlignment, true⟩
      | _, _, _ =>
        ⟨some { editorState with mousePosition := some mousePosition }, none, true⟩

/-- The editor state owned by the `useOrbitAreaEditor` hook (declared inline
in the hook source; its `alignment` is not optional there). -/
structure HookState where
  mode : EditorMode
  firstPoint : Option Point
  secondPoint : Option Point
  width : Option ℚ
  mousePosition : Option Point
  alignment : OrbitAreaAlignmentEnum
deriving DecidableEq, Repr

/-- `startEditing` from the `useOrbitAreaEditor` hook: the state it stores. -/
def startEditing : HookState :=
  ⟨.FIRST_POINT, none, none, none, none, .CENTRE⟩

/-- `cancelEditing` from the `useOrbitAreaEditor` hook: the state it stores. -/
def cancelEditing : HookState :=
  ⟨.INACTIVE, none, none, none, none, .CENTRE⟩

/-- `handleMapClick` from the `useOrbitAreaEditor` hook: the stored state and
the argument of any `onOrbitAreaComplete` call (the hook never makes one). -/
def handleMapClick (st : HookState) (coordinate : Option Point) :
    HookState × Option OrbitArea :=
  match coordinate with
  | none => (st, none)
  | some pickedPoint =>
    match st.mode with
    | .FIRST_POINT =>
      ({ st with firstPoint := some pickedPoint, mode := .SECOND_POINT }, none)
    | .SECOND_POINT =>
      ({ st with secondPoint := some pickedPoint, mode := .WIDTH_SELECTION }, none)
    | .WIDTH_SELECTION =>
      match st.firstPoint, st.secondPoint with
      | some _, some _ => (⟨.INACTIVE, none, none, none, none, st.alignment⟩, none)
      | _, _ => (st, none)
    | .INACTIVE => (st, none)

/-- `handleMouseMove` from the `useOrbitAreaEditor` hook. -/
def handleMouseMove (st : HookState) (coordinate : Option Point) :
    HookState × Option OrbitArea :=
  match coordinate with
  | none => (st, none)
  | some mousePosition => ({ st with mousePosition := some mousePosition }, none)

/-- One interaction event handled by the `useOrbitAreaEditor` hook. -/
inductive HookEvent where
  | start
  | cancel
  | click (coordinate : Option Point)
  | move (coordinate : Option Point)

/-- Dispatch one hook event to the corresponding handler. -/
def hookStep (st : HookState) : HookEvent → HookState × Option OrbitArea
  | .start => (startEditing, none)
  | .cancel => (cancelEditing, none)
  | .click c => handleMapClick st c
  | .move c => handleMouseMove st c

/-- Run a sequence of hook events, collecting every emitted `OrbitArea`. -/
def runHook (st : HookState) : List HookEvent → HookState × List OrbitArea
  | [] => (st, [])
  | e :: es =>
    let step := hookStep st e
    let rest := runHook step.1 es
    (rest.1, step.2.toList ++ rest.2)

/-- A concrete instantiation of the abstract `geolib` interface, used to
exhibit witnesses: bearing reads the target's longitude, distance is the
longitude difference, destination shifts latitude by the distance and
longitude by the normalized bearing. -/
def flatGeo : GeoModel where
  dist := fun p q => q.longitude - p.longitude
  bearing := fun _ q => q.longitude
  dest := fun p a d => ⟨p.latitude + d, p.longitude + normalizeAngle a⟩

theorem ratTrunc_eq_floor (q : ℚ) (h : 0 ≤ q) : ratTrunc q = ⌊q⌋ := by
  unfold ratTrunc
  rw [Rat.floor_def]
  exact Int.tdiv_eq_ediv (Rat.num_nonneg.mpr h) (Int.natCast_nonneg _)

theorem ratTrunc_neg (q : ℚ) : ratTrunc (-q) = -ratTrunc q := by
  unfold ratTrunc
  rw [Rat.neg_num, Rat.neg_den, Int.neg_tdiv]

theorem ratTrunc_eq_ceil (q : ℚ) (h : q < 0) : ratTrunc q = ⌈q⌉ := by
  have h1 : ratTrunc q = -ratTrunc (-q) := by rw [ratTrunc_neg, neg_neg]
  rw [h1, ratTrunc_eq_floor (-q) (by linarith), Int.floor_neg, neg_neg]

theorem jsMod_bounds_of_nonneg (x : ℚ) (hx : 0 ≤ x) :
    0 ≤ jsMod x 360 ∧ jsMod x 360 < 360 := by
  have hq : (0 : ℚ) ≤ x / 360 := by positivity
  have hx360 : x = x / 360 * 360 := by ring
  have h1 : ((⌊x / 360⌋ : ℚ)) ≤ x / 360 := Int.floor_le _
  have h2 : x / 360 < ⌊x / 360⌋ + 1 := Int.lt_floor_add_one _
  unfold jsMod
  rw [ratTrunc_eq_floor _ hq]
  constructor <;> nlinarith [h1, h2, hx360]

theorem jsMod_bounds_of_neg (x : ℚ) (hx : x < 0) :
    -360 < jsMod x 360 ∧ jsMod x 360 ≤ 0 := by
  have hq : x / 360 < 0 := by
    have h360 : (0 : ℚ) < 360 := by norm_num
    exact div_neg_of_neg_of_pos hx h360
  have hx360 : x = x / 360 * 360 := by ring
  have h1 : x / 360 ≤ ((⌈x / 360⌉ : ℚ)) := Int.le_ceil _
  have h2 : ((⌈x / 360⌉ : ℚ)) < x / 360 + 1 := Int.ceil_lt_add_one _
  unfold jsMod
  rw [ratTrunc_eq_ceil _ hq]
  constructor <;> nlinarith [h1, h2, hx360]

theorem normalizeAngle_mem (x : ℚ) :
    0 ≤ normalizeAngle x ∧ normalizeAngle x < 360 := by
  unfold normalizeAngle
  have hcases : 0 ≤ jsMod x 360 + 360 := by
    rcases le_or_lt 0 x with h | h
    · have := (jsMod_bounds_of_nonneg x h).1; linarith
    · have := (jsMod_bounds_of_neg x h).1; linarith
  exact jsMod_bounds_of_nonneg _ hcases

theorem normalizeAngle_sub_int (x : ℚ) :
    ∃ k : ℤ, normalizeAngle x = x - 360 * k := by
  refine ⟨ratTrunc (x / 360) - 1 +
    ratTrunc ((x - 360 * ratTrunc (x / 360) + 360) / 360), ?_⟩
  unfold normalizeAngle jsMod
  push_cast
  ring

theorem normalizeAngle_eq_of (x y : ℚ) (k : ℤ) (hxy : x = y + 360 * k)
    (h0 : 0 ≤ y) (h1 : y < 360) : normalizeAngle x = y := by
  obtain ⟨m, hm⟩ := normalizeAngle_sub_int x
  have hr := normalizeAngle_mem x
  have hdiff : normalizeAngle x - y = 360 * ((k : ℚ) - m) := by
    rw [hm, hxy]; ring
  have hlt : ((k - m : ℤ) : ℚ) < 1 := by push_cast; linarith [hr.1]
  have hgt : (-1 : ℚ) < ((k - m : ℤ) : ℚ) := by push_cast; linarith [hr.2]
  have hint : k - m = 0 := by
    have u1 : (k - m : ℤ) < 1 := by exact_mod_cast hlt
    have u2 : (-1 : ℤ) < k - m := by exact_mod_cast hgt
    omega
  have hkm : (k : ℚ) = (m : ℚ) := by
    have hc : ((k - m : ℤ) : ℚ) = 0 := by rw [hint]; norm_num
    push_cast at hc
    linarith
  rw [hm, hxy, hkm]
  ring

theorem normalizeAngle_periodic (x : ℚ) (k : ℤ) :
    normalizeAngle (x + 360 * k) = normalizeAngle x := by
  obtain ⟨m, hm⟩ := normalizeAngle_sub_int x
  refine normalizeAngle_eq_of _ _ (k + m) ?_ (normalizeAngle_mem x).1
    (normalizeAngle_mem x).2
  rw [hm]; push_cast; ring

theorem normalizeAngle_eq_self (x : ℚ) (h0 : 0 ≤ x) (h1 : x < 360) :
    normalizeAngle x = x :=
  normalizeAngle_eq_of x x 0 (by push_cast; ring) h0 h1

theorem normalizeAngle_idem (x : ℚ) :
    normalizeAngle (normalizeAngle x) = normalizeAngle x :=
  normalizeAngle_eq_self _ (normalizeAngle_mem x).1 (normalizeAngle_mem x).2

theorem normalizeAngle_add_180 (x : ℚ) :
    normalizeAngle (x + 180) =
      if 180 ≤ normalizeAngle x then normalizeAngle x - 180
      else normalizeAngle x + 180 := by
  obtain ⟨m, hm⟩ := normalizeAngle_sub_int x
  have hr := normalizeAngle_mem x
  by_cases h : 180 ≤ normalizeAngle x
  · rw [if_pos h]
    refine normalizeAngle_eq_of _ _ (m + 1) ?_ (by linarith) (by linarith [hr.2])
    push_cast
    linarith [hm]
  · rw [if_neg h]
    push_neg at h
    refine normalizeAngle_eq_of _ _ m ?_ (by linarith [hr.1]) (by linarith)
    linarith [hm]

/-- C8: `normalizeAngle` computes `((deg % 360) + 360) % 360`, the result
lies in `[0, 360)` for every input (negative included), and the function is
invariant under shifting the input by any integer multiple of 360. -/
theorem normalizeAngle_claim :
    (∀ x : ℚ, normalizeAngle x = jsMod (jsMod x 360 + 360) 360) ∧
    (∀ x : ℚ, 0 ≤ normalizeAngle x ∧ normalizeAngle x < 360) ∧
    (∀ (x : ℚ) (k : ℤ), normalizeAngle (x + 360 * k) = normalizeAngle x) :=
  ⟨fun _ => rfl, normalizeAngle_mem, normalizeAngle_periodic⟩

/-- C1: for distinct axis points and any probe,
`determineAlignmentFromMousePosition` equals the claim-side classifier
applied to `normalizeAngle (bearing(second, probe) - bearing(first, second))`
— the probe bearing anchored at the second axis point, classified by the
first matching quadrant in the fixed scan order. -/
theorem determineAlignment_eq_classifySpec (g : GeoModel)
    (firstPoint secondPoint mousePoint : Point)
    (_hne : firstPoint ≠ secondPoint) :
    determineAlignmentFromMousePosition g firstPoint secondPoint mousePoint =
      classifySpec (normalizeAngle
        (g.bearing secondPoint mousePoint - g.bearing firstPoint secondPoint)) := by
  unfold determineAlignmentFromMousePosition relativeBearing
  generalize normalizeAngle (g.bearing secondPoint mousePoint -
    g.bearing firstPoint secondPoint) = r
  unfold classifySpec
  simp only [ALIGNMENT_QUADRANTS, scanFirst]
  norm_num
  split_ifs <;> rfl

/-- C1 witness: the classifier agrees with the claim-side classifier at a
concrete geo model and concrete distinct axis points. -/
theorem determineAlignment_eq_classifySpec_witness :
    (Point.mk 0 0 ≠ Point.mk 0 10) ∧
    determineAlignmentFromMousePosition flatGeo ⟨0, 0⟩ ⟨0, 10⟩ ⟨0, 100⟩ =
      classifySpec (normalizeAngle
        (flatGeo.bearing ⟨0, 10⟩ ⟨0, 100⟩ - flatGeo.bearing ⟨0, 0⟩ ⟨0, 10⟩)) :=
  ⟨by simp [Point.mk.injEq], determineAlignment_eq_classifySpec flatGeo _ _ _
    (by simp [Point.mk.injEq])⟩

/-- C6: quadrant boundaries are inclusive on both ends, so a relative
bearing exactly on a shared boundary goes to the quadrant tested first in
scan order: 45 gives CENTRE, 135 gives RIGHT, 225 gives CENTRE, 315 gives
CENTRE. -/
theorem boundary_classification :
    (∀ (g : GeoModel) (fp sp mp : Point), relativeBearing g fp sp mp = 45 →
      determineAlignmentFromMousePosition g fp sp mp = .CENTRE) ∧
    (∀ (g : GeoModel) (fp sp mp : Point), relativeBearing g fp sp mp = 135 →
      determineAlignmentFromMousePosition g fp sp mp = .RIGHT) ∧
    (∀ (g : GeoModel) (fp sp mp : Point), relativeBearing g fp sp mp = 225 →
      determineAlignmentFromMousePosition g fp sp mp = .CENTRE) ∧
    (∀ (g : GeoModel) (fp sp mp : Point), relativeBearing g fp sp mp = 315 →
      determineAlignmentFromMousePosition g fp sp mp = .CENTRE) := by
  refine ⟨?_, ?_, ?_, ?_⟩ <;>
    · intro g fp sp mp h
      unfold determineAlignmentFromMousePosition
      rw [h]
      simp only [ALIGNMENT_QUADRANTS, scanFirst]
      norm_num

/-- C7: every relative bearing in `[0, 360)` is covered by at least one
quadrant, and since `normalizeAngle` always lands there, the classifier's
result always comes from inside the scan loop — the fall-through default is
unreachable. -/
theorem classifier_total :
    (∀ r : ℚ, 0 ≤ r → r < 360 →
      ∃ a, scanFirst r ALIGNMENT_QUADRANTS = some a) ∧
    (∀ (g : GeoModel) (fp sp mp : Point), ∃ a,
      scanFirst (relativeBearing g fp sp mp) ALIGNMENT_QUADRANTS = some a ∧
      determineAlignmentFromMousePosition g fp sp mp = a) := by
  have cover : ∀ r : ℚ, 0 ≤ r → r < 360 →
      ∃ a, scanFirst r ALIGNMENT_QUADRANTS = some a := by
    intro r h0 h1
    simp only [ALIGNMENT_QUADRANTS, scanFirst]
    norm_num
    split_ifs with c1 c2 c3 c4
    · exact ⟨_, rfl⟩
    · exact ⟨_, rfl⟩
    · exact ⟨_, rfl⟩
    · exact ⟨_, rfl⟩
    · exfalso
      push_neg at c1 c2 c3 c4
      have d2 := c2 (le_of_lt c1.2)
      have d3 := c3 (le_of_lt d2)
      have d4 := c4 (le_of_lt d3)
      linarith [c1.1]
  refine ⟨cover, fun g fp sp mp => ?_⟩
  have hr := normalizeAngle_mem
    (g.bearing sp mp - g.bearing fp sp)
  obtain ⟨a, ha⟩ := cover (relativeBearing g fp sp mp) hr.1 hr.2
  exact ⟨a, ha, by unfold determineAlignmentFromMousePosition; rw [ha]; rfl⟩

theorem relativeBearing_flatGeo (fp sp mp : Point) :
    relativeBearing flatGeo fp sp mp =
      normalizeAngle (mp.longitude - sp.longitude) := rfl

/-- C6 witness: concrete probes whose relative bearings are exactly 45, 135,
225 and 315 classify as CENTRE, RIGHT, CENTRE and CENTRE. -/
theorem boundary_classification_witness :
    determineAlignmentFromMousePosition flatGeo ⟨0, 0⟩ ⟨0, 0⟩ ⟨0, 45⟩ = .CENTRE ∧
    determineAlignmentFromMousePosition flatGeo ⟨0, 0⟩ ⟨0, 0⟩ ⟨0, 135⟩ = .RIGHT ∧
    determineAlignmentFromMousePosition flatGeo ⟨0, 0⟩ ⟨0, 0⟩ ⟨0, 225⟩ = .CENTRE ∧
    determineAlignmentFromMousePosition flatGeo ⟨0, 0⟩ ⟨0, 0⟩ ⟨0, 315⟩ = .CENTRE :=
  ⟨boundary_classification.1 flatGeo _ _ _ (by
      rw [relativeBearing_flatGeo]
      exact normalizeAngle_eq_of _ 45 0 (by norm_num) (by norm_num) (by norm_num)),
   boundary_classification.2.1 flatGeo _ _ _ (by
      rw [relativeBearing_flatGeo]
      exact normalizeAngle_eq_of _ 135 0 (by norm_num) (by norm_num) (by norm_num)),
   boundary_classification.2.2.1 flatGeo _ _ _ (by
      rw [relativeBearing_flatGeo]
      exact normalizeAngle_eq_of _ 225 0 (by norm_num) (by norm_num) (by norm_num)),
   boundary_classification.2.2.2 flatGeo _ _ _ (by
      rw [relativeBearing_flatGeo]
      exact normalizeAngle_eq_of _ 315 0 (by norm_num) (by norm_num) (by norm_num))⟩

/-- C7 witness: coverage at the concrete relative bearing 0, and the
loop-produced result at a concrete configuration. -/
theorem classifier_total_witness :
    (∃ a, scanFirst 0 ALIGNMENT_QUADRANTS = some a) ∧
    (∃ a, scanFirst (relativeBearing flatGeo ⟨0, 0⟩ ⟨0, 0⟩ ⟨0, 45⟩)
        ALIGNMENT_QUADRANTS = some a ∧
      determineAlignmentFromMousePosition flatGeo ⟨0, 0⟩ ⟨0, 0⟩ ⟨0, 45⟩ = a) :=
  ⟨classifier_total.1 0 (by norm_num) (by norm_num),
   classifier_total.2 flatGeo _ _ _⟩

theorem capsHead (n m : ℕ) (f1 f2 : ℕ → Point) :
    ((List.range (n + 1)).map f1 ++ (List.range (m + 1)).map f2).head? =
      some (f1 0) := by
  simp [List.head?_append, List.head?_map, List.head?_range]

theorem closeRing_eq (l : List Point) (p : Point) (h : l.head? = some p) :
    closeRing l = l ++ [p] := by
  unfold closeRing
  rw [h]

theorem closeRing_facts (l : List Point) (p : Point) (h : l.head? = some p) :
    (closeRing l).length = l.length + 1 ∧
    (closeRing l).getLast? = some p ∧
    (closeRing l).head? = some p := by
  rw [closeRing_eq l p h]
  refine ⟨by simp, List.getLast?_concat _, ?_⟩
  rw [List.head?_append, h]
  rfl

theorem closedCaps (f1 f2 : ℕ → Point) :
    (closeRing ((List.range (20 + 1)).map f1 ++
        (List.range (20 + 1)).map f2)).length = 2 * (20 + 1) + 1 ∧
    (closeRing ((List.range (20 + 1)).map f1 ++
        (List.range (20 + 1)).map f2)).getLast? =
      (closeRing ((List.range (20 + 1)).map f1 ++
        (List.range (20 + 1)).map f2)).head? := by
  obtain ⟨h1, h2, h3⟩ := closeRing_facts
    ((List.range (20 + 1)).map f1 ++ (List.range (20 + 1)).map f2) (f1 0)
    (capsHead 20 20 f1 f2)
  refine ⟨?_, by rw [h2, h3]⟩
  rw [h1]
  simp

theorem normalizeAngle_sub_90_from_add (b : ℚ) :
    normalizeAngle (b - 90) =
      if 180 ≤ normalizeAngle (b + 90) then normalizeAngle (b + 90) - 180
      else normalizeAngle (b + 90) + 180 := by
  have h1 : b - 90 = b + 90 + 180 + 360 * ((-1 : ℤ) : ℚ) := by push_cast; ring
  rw [h1, normalizeAngle_periodic (b + 90 + 180) (-1), normalizeAngle_add_180]

theorem normalizeAngle_add_90_from_sub (b : ℚ) :
    normalizeAngle (b + 90) =
      if 180 ≤ normalizeAngle (b - 90) then normalizeAngle (b - 90) - 180
      else normalizeAngle (b - 90) + 180 := by
  have h1 : b + 90 = b - 90 + 180 := by ring
  rw [h1, normalizeAngle_add_180]

theorem adjustEndAngle_span1 (b : ℚ) :
    adjustEndAngle (normalizeAngle (b + 90)) (normalizeAngle (b - 90)) =
      normalizeAngle (b + 90) + 180 := by
  rw [normalizeAngle_sub_90_from_add b]
  unfold adjustEndAngle
  by_cases h : 180 ≤ normalizeAngle (b + 90)
  · rw [if_pos h, if_pos (by linarith)]
    ring
  · rw [if_neg h, if_neg (not_lt.mpr (by linarith))]

theorem adjustEndAngle_span2 (b : ℚ) :
    adjustEndAngle (normalizeAngle (b - 90)) (normalizeAngle (b + 90)) =
      normalizeAngle (b - 90) + 180 := by
  rw [normalizeAngle_add_90_from_sub b]
  unfold adjustEndAngle
  by_cases h : 180 ≤ normalizeAngle (b - 90)
  · rw [if_pos h, if_pos (by linarith)]
    ring
  · rw [if_neg h, if_neg (not_lt.mpr (by linarith))]

/-- C4: for any geo model, axis points, positive width and alignment string,
the generated polygon is a closed ring of `2 × (segments + 1) + 1 = 43`
points with the per-cap segment count fixed at 20. -/
theorem generate_ring_facts (g : GeoModel) (fp sp : Point) (w : ℚ)
    (al : String) (_hw : 0 < w) :
    (generateOrbitAreaPolygon g fp sp w al).length = 2 * (20 + 1) + 1 ∧
    (generateOrbitAreaPolygon g fp sp w al).getLast? =
      (generateOrbitAreaPolygon g fp sp w al).head? := by
  simp only [generateOrbitAreaPolygon]
  exact closedCaps _ _

/-- C4 witness: the ring facts at a concrete geo model, points, width 100
and CENTRE alignment. -/
theorem generate_ring_facts_witness :
    (0 : ℚ) < 100 ∧
    ((generateOrbitAreaPolygon flatGeo ⟨0, 0⟩ ⟨1, 1⟩ 100
        "OrbitAreaAlignmentEnum_CENTRE").length = 2 * (20 + 1) + 1 ∧
      (generateOrbitAreaPolygon flatGeo ⟨0, 0⟩ ⟨1, 1⟩ 100
        "OrbitAreaAlignmentEnum_CENTRE").getLast? =
        (generateOrbitAreaPolygon flatGeo ⟨0, 0⟩ ⟨1, 1⟩ 100
          "OrbitAreaAlignmentEnum_CENTRE").head?) :=
  ⟨by norm_num, generate_ring_facts flatGeo ⟨0, 0⟩ ⟨1, 1⟩ 100 _ (by norm_num)⟩

theorem flatGeo_per (p : Point) (a d : ℚ) :
    flatGeo.dest p (normalizeAngle a) d = flatGeo.dest p a d := by
  simp [flatGeo, normalizeAngle_idem]

/-- C5: for any geo model whose destination function depends on the bearing
only modulo 360 (true of `geolib`), the centerline of
`generateOrbitAreaPolygon` matches the spec's per-alignment description
(CENTRE unchanged, LEFT offset along `bearing - 90`, RIGHT along
`bearing + 90`, both by `radius = width / 2`), the generated polygon equals
the spec-side generator (whose caps step through their own
wraparound-adjusted spans), and every generated point is a destination-point
projection at distance `radius` from one of the two centerline endpoints. -/
theorem generate_refines_spec (g : GeoModel)
    (hper : ∀ (p : Point) (a d : ℚ), g.dest p (normalizeAngle a) d = g.dest p a d)
    (fp sp : Point) (w : ℚ) (al : String) :
    orbitCenterline g fp sp (g.bearing fp sp) (w / 2) al =
      centerlineSpec g fp sp (g.bearing fp sp) (w / 2) al ∧
    generateOrbitAreaPolygon g fp sp w al =
      generateOrbitAreaPolygonSpec g fp sp w al ∧
    (∀ q ∈ generateOrbitAreaPolygon g fp sp w al, ∃ a : ℚ,
      q = g.dest (orbitCenterline g fp sp (g.bearing fp sp) (w / 2) al).1 a (w / 2) ∨
      q = g.dest (orbitCenterline g fp sp (g.bearing fp sp) (w / 2) al).2 a (w / 2)) := by
  have hcl : orbitCenterline g fp sp (g.bearing fp sp) (w / 2) al =
      centerlineSpec g fp sp (g.bearing fp sp) (w / 2) al := by
    unfold orbitCenterline centerlineSpec
    split_ifs <;> simp [hper]
  refine ⟨hcl, ?_, ?_⟩
  · simp only [generateOrbitAreaPolygon, generateOrbitAreaPolygonSpec, hcl]
    congr 1
    congr 1
    · apply List.map_congr_left
      intro i _
      rw [hper]
      norm_num
    · apply List.map_congr_left
      intro i _
      rw [hper, adjustEndAngle_span1, adjustEndAngle_span2]
      norm_num
  · intro q hq
    simp only [generateOrbitAreaPolygon] at hq
    rw [closeRing_eq _ _ (capsHead 20 20 _ _)] at hq
    simp only [List.mem_append, List.mem_map, List.mem_singleton,
      List.mem_range] at hq
    rcases hq with ((⟨i, _, rfl⟩ | ⟨i, _, rfl⟩) | rfl)
    · exact ⟨_, Or.inl rfl⟩
    · exact ⟨_, Or.inr rfl⟩
    · exact ⟨_, Or.inl rfl⟩

/-- C5 witness: the refinement at a concrete geo model satisfying the
periodicity hypothesis, with LEFT alignment. -/
theorem generate_refines_spec_witness :
    generateOrbitAreaPolygon flatGeo ⟨0, 0⟩ ⟨1, 1⟩ 100
        "OrbitAreaAlignmentEnum_LEFT" =
      generateOrbitAreaPolygonSpec flatGeo ⟨0, 0⟩ ⟨1, 1⟩ 100
        "OrbitAreaAlignmentEnum_LEFT" :=
  (generate_refines_spec flatGeo flatGeo_per ⟨0, 0⟩ ⟨1, 1⟩ 100 _).2.1

/-- C2: in WIDTH_SELECTION with both points placed and an `onStateChange`
callback provided, a hover at `q` stores the classifier value at `q` in the
layer's internal alignment, and a subsequent click at `p` emits (when
`onOrbitAreaComplete` is provided) exactly one OrbitArea whose points are
the placed points, whose width is `2 × calculateDistance(secondPoint, p)`,
and whose alignment is the hover-computed value — not one recomputed from
`p` — and resets the editor state to INACTIVE with first point, second
point, width and mouse position cleared. -/
theorem width_selection_click_completes (g : GeoModel) (hasComplete : Bool)
    (st st' : EditorState) (fp sp q p : Point) (a : OrbitAreaAlignmentEnum)
    (hmode : st.mode = .WIDTH_SELECTION) (hfp : st.firstPoint = some fp)
    (hsp : st.secondPoint = some sp)
    (hhov : OrbitAreaEditor.onHover g true st (some q) = ⟨some st', some a, true⟩) :
    a = determineAlignmentFromMousePosition g fp sp q ∧
    OrbitAreaEditor.onClick g true hasComplete st' a (some p) =
      ⟨some { st' with
          firstPoint := none,
          secondPoint := none,
          width := none,
          mousePosition := none,
          mode := .INACTIVE },
        if hasComplete then some ⟨fp, sp, 2 * g.dist sp p, a⟩ else none, true⟩ := by
  unfold OrbitAreaEditor.onHover at hhov
  simp only [hmode, hfp, hsp] at hhov
  norm_num at hhov
  obtain ⟨hst', ha⟩ := hhov
  subst hst'
  subst ha
  refine ⟨rfl, ?_⟩
  unfold OrbitAreaEditor.onClick
  simp [hmode, hfp, hsp, mul_comm]

/-- C2 witness: the hover-then-click exchange at a concrete geo model and
concrete points. -/
theorem width_selection_click_completes_witness :
    determineAlignmentFromMousePosition flatGeo ⟨0, 0⟩ ⟨0, 10⟩ ⟨0, 100⟩ =
      determineAlignmentFromMousePosition flatGeo ⟨0, 0⟩ ⟨0, 10⟩ ⟨0, 100⟩ ∧
    OrbitAreaEditor.onClick flatGeo true true
        ⟨.WIDTH_SELECTION, some ⟨0, 0⟩, some ⟨0, 10⟩, none, some ⟨0, 100⟩, none⟩
        (determineAlignmentFromMousePosition flatGeo ⟨0, 0⟩ ⟨0, 10⟩ ⟨0, 100⟩)
        (some ⟨0, 50⟩) =
      ⟨some ⟨.INACTIVE, none, none, none, none, none⟩,
        some ⟨⟨0, 0⟩, ⟨0, 10⟩, 2 * flatGeo.dist ⟨0, 10⟩ ⟨0, 50⟩,
          determineAlignmentFromMousePosition flatGeo ⟨0, 0⟩ ⟨0, 10⟩ ⟨0, 100⟩⟩,
        true⟩ :=
  width_selection_click_completes flatGeo true
    ⟨.WIDTH_SELECTION, some ⟨0, 0⟩, some ⟨0, 10⟩, none, none, none⟩
    ⟨.WIDTH_SELECTION, some ⟨0, 0⟩, some ⟨0, 10⟩, none, some ⟨0, 100⟩, none⟩
    ⟨0, 0⟩ ⟨0, 10⟩ ⟨0, 100⟩ ⟨0, 50⟩ _ rfl rfl rfl rfl

/-- C3 (supporting evaluation): the layer's `onClick` does NOT treat a null
coordinate as a no-op — in FIRST_POINT mode it places the fabricated point
(0, 0) and advances the mode — while the layer's `onHover` and both hook
handlers do guard against a null coordinate. -/
theorem onClick_null_coordinate_not_noop :
    OrbitAreaEditor.onClick flatGeo true true
        ⟨.FIRST_POINT, none, none, none, none, none⟩ .CENTRE none =
      ⟨some ⟨.SECOND_POINT, some ⟨0, 0⟩, none, none, none, none⟩, none, true⟩ ∧
    OrbitAreaEditor.onHover flatGeo true
        ⟨.FIRST_POINT, none, none, none, none, none⟩ none = ⟨none, none, false⟩ ∧
    (∀ st : HookState, handleMapClick st none = (st, none)) ∧
    (∀ st : HookState, handleMouseMove st none = (st, none)) :=
  ⟨rfl, rfl, fun _ => rfl, fun _ => rfl⟩

theorem hookStep_no_completion (st : HookState) (e : HookEvent) :
    (hookStep st e).2 = none := by
  obtain ⟨mode, fp, sp, w, mp, al⟩ := st
  cases e with
  | start => rfl
  | cancel => rfl
  | move c => cases c <;> rfl
  | click c =>
    cases c with
    | none => rfl
    | some pt => cases mode <;> cases fp <;> cases sp <;> rfl

/-- C10: the `useOrbitAreaEditor` hook never invokes `onOrbitAreaComplete`:
every sequence of start/cancel/click/move events produces an empty emission
trace, and the WIDTH_SELECTION click branch merely resets the state to
INACTIVE (keeping the current alignment) without constructing an OrbitArea. -/
theorem hook_never_completes :
    (∀ (st : HookState) (events : List HookEvent),
      (runHook st events).2 = []) ∧
    (∀ (st : HookState) (p : Point), st.mode = .WIDTH_SELECTION →
      st.firstPoint.isSome → st.secondPoint.isSome →
      handleMapClick st (some p) =
        (⟨.INACTIVE, none, none, none, none, st.alignment⟩, none)) := by
  constructor
  · intro st events
    induction events generalizing st with
    | nil => rfl
    | cons e es ih =>
      simp only [runHook]
      rw [hookStep_no_completion, ih]
      rfl
  · intro st p hmode h1 h2
    obtain ⟨fp, hfp⟩ := Option.isSome_iff_exists.mp h1
    obtain ⟨sp, hsp⟩ := Option.isSome_iff_exists.mp h2
    simp [handleMapClick, hmode, hfp, hsp]

/-- C10 witness: a full three-click session through the hook emits nothing,
and a concrete WIDTH_SELECTION click resets the state. -/
theorem hook_never_completes_witness :
    (runHook startEditing [HookEvent.click (some ⟨0, 0⟩),
      HookEvent.move (some ⟨1, 1⟩), HookEvent.click (some ⟨0, 10⟩),
      HookEvent.click (some ⟨0, 50⟩)]).2 = [] ∧
    handleMapClick
        ⟨.WIDTH_SELECTION, some ⟨0, 0⟩, some ⟨0, 10⟩, none, none, .CENTRE⟩
        (some ⟨0, 50⟩) =
      (⟨.INACTIVE, none, none, none, none, .CENTRE⟩, none) :=
  ⟨hook_never_completes.1 startEditing _,
   hook_never_completes.2 _ ⟨0, 50⟩ rfl rfl rfl⟩
